import Mathlib

/-!
Verification of the chandelier-alert-bot trend engine and stream logic.

The repository has two source variants of the same bot:
* `bot.py` — explicit lists, hand-rolled Wilder ATR, Discord sink
  (embedded in namespace `Bot`);
* `chandelierbot.py` — pandas DataFrame, ta-library ATR, Telegram sink
  (embedded in namespace `CB`).

Prices are modelled as rationals.  Pandas/numpy "NaN" values (undefined
rolling windows) are modelled as `Option ℚ` with `none` for NaN; a
comparison against NaN is false, matching pandas semantics.
-/

namespace Bot

/-- Source `ATR_PERIOD = 22` from bot.py line 16. -/
def ATR_PERIOD : Nat := 22

/-- Source `HISTORY_LIMIT = 200` from bot.py line 17. -/
def HISTORY_LIMIT : Nat := 200

/-- The `Candle` dataclass of bot.py lines 46-52 (`open` is a Lean keyword,
so the field is called `open_`). -/
structure Candle where
  time : Int
  open_ : ℚ
  high : ℚ
  low : ℚ
  close : ℚ
deriving DecidableEq, Repr

/-- Source `closes = [c.close for c in candles]` (bot.py line 56). -/
def closes (c : List Candle) : List ℚ := c.map Candle.close

/-- Source `highs = [c.high for c in candles]` (bot.py line 57). -/
def highs (c : List Candle) : List ℚ := c.map Candle.high

/-- Source `lows = [c.low for c in candles]` (bot.py line 58). -/
def lows (c : List Candle) : List ℚ := c.map Candle.low

/-- Source `closes[i]`; out-of-range indices (never used by the source loops on
valid indices) default to 0. -/
def closeD (c : List Candle) (i : Nat) : ℚ := (closes c).getD i 0

/-- Source `highs[i]` with default 0 out of range. -/
def highD (c : List Candle) (i : Nat) : ℚ := (highs c).getD i 0

/-- Source `lows[i]` with default 0 out of range. -/
def lowD (c : List Candle) (i : Nat) : ℚ := (lows c).getD i 0

/-- Source `prev_close = closes[i - 1] if i else closes[0]` (bot.py line 62). -/
def prev_close (c : List Candle) (i : Nat) : ℚ :=
  if i = 0 then closeD c 0 else closeD c (i - 1)

/-- The true-range value of bot.py lines 63-67:
`max(highs[i]-lows[i], abs(highs[i]-prev_close), abs(lows[i]-prev_close))`. -/
def trVal (c : List Candle) (i : Nat) : ℚ :=
  max (highD c i - lowD c i)
    (max |highD c i - prev_close c i| |lowD c i - prev_close c i|)

/-- The `atr` array of bot.py lines 60-72: `None` below index
`ATR_PERIOD-1`, the simple mean of the first `ATR_PERIOD` true ranges at
index `ATR_PERIOD-1`, Wilder smoothing afterwards.  The imperative loop is
transliterated into structural recursion on the index. -/
def atr (c : List Candle) : Nat → Option ℚ
  | 0 => none
  | i + 1 =>
    if i + 2 < ATR_PERIOD then none
    else if i + 2 = ATR_PERIOD then
      some ((((List.range ATR_PERIOD).map (trVal c)).sum) / (ATR_PERIOD : ℚ))
    else (atr c i).map fun a =>
      (a * ((ATR_PERIOD : ℚ) - 1) + trVal c (i + 1)) / (ATR_PERIOD : ℚ)

/-- Source `max(closes[i - ATR_PERIOD + 1 : i + 1])` (bot.py line 76): the maximum
of the trailing `ATR_PERIOD`-window ending at `i` (the source only evaluates
it for `ATR_PERIOD - 1 ≤ i < n`, where the slice is full). -/
def rollMax (xs : List ℚ) (i : Nat) : ℚ :=
  ((xs.drop (i + 1 - ATR_PERIOD)).take ATR_PERIOD).foldl max
    (xs.getD (i + 1 - ATR_PERIOD) 0)

/-- Source `min(closes[i - ATR_PERIOD + 1 : i + 1])` (bot.py line 77). -/
def rollMin (xs : List ℚ) (i : Nat) : ℚ :=
  ((xs.drop (i + 1 - ATR_PERIOD)).take ATR_PERIOD).foldl min
    (xs.getD (i + 1 - ATR_PERIOD) 0)

/-- Source `long_stop` of bot.py lines 74-78: `0.0` outside the loop range
`ATR_PERIOD-1 ≤ i < n`, else `hi_closes - atr_mult * atr[i]` (inside that
range `atr[i]` is a defined float, hence the `getD`). -/
def long_stop (c : List Candle) (m : ℚ) (i : Nat) : ℚ :=
  if ATR_PERIOD - 1 ≤ i ∧ i < c.length then
    rollMax (closes c) i - m * (atr c i).getD 0
  else 0

/-- Source `short_stop` of bot.py lines 74-79: `0.0` outside the loop range, else
`lo_closes + atr_mult * atr[i]`. -/
def short_stop (c : List Candle) (m : ℚ) (i : Nat) : ℚ :=
  if ATR_PERIOD - 1 ≤ i ∧ i < c.length then
    rollMin (closes c) i + m * (atr c i).getD 0
  else 0

/-- The ratcheted `long_adj` array of bot.py lines 81-85, loop transliterated
to recursion: entry 0 is the copy `long_stop[:]`, entry `i ≥ 1` is
`max(long_stop[i], prev_long) if closes[i-1] > prev_long else long_stop[i]`
with `prev_long = long_adj[i-1]`. -/
def long_adj (c : List Candle) (m : ℚ) : Nat → ℚ
  | 0 => long_stop c m 0
  | i + 1 =>
    if closeD c i > long_adj c m i then max (long_stop c m (i + 1)) (long_adj c m i)
    else long_stop c m (i + 1)

/-- The ratcheted `short_adj` array of bot.py lines 81-86. -/
def short_adj (c : List Candle) (m : ℚ) : Nat → ℚ
  | 0 => short_stop c m 0
  | i + 1 =>
    if closeD c i < short_adj c m i then min (short_stop c m (i + 1)) (short_adj c m i)
    else short_stop c m (i + 1)

/-- The trend value at index `i` (bot.py lines 82-92): seeded at `+1`,
then `+1` if `closes[i] > prev_short`, `-1` if `closes[i] < prev_long`,
else the previous value, where `prev_short`/`prev_long` are the adjusted
stops at `i-1` read before they are overwritten at `i`. -/
def trendAt (c : List Candle) (m : ℚ) : Nat → Int
  | 0 => 1
  | i + 1 =>
    if closeD c (i + 1) > short_adj c m i then 1
    else if closeD c (i + 1) < long_adj c m i then -1
    else trendAt c m i

/-- Source `compute_trend` of bot.py lines 54-93: the returned list is
`[1]` extended by the loop over `range(1, n)`, i.e. the first `max 1 n`
trend values. -/
def compute_trend (c : List Candle) (m : ℚ) : List Int :=
  (List.range (max 1 c.length)).map (trendAt c m)

/-- The first synthetic candle of `convert_to_heikin_ashi`
(bot.py lines 95-107, `i == 0` branch): `ha_open = (open + close) / 2`. -/
def haFirst (c : Candle) : Candle :=
  let ha_open := (c.open_ + c.close) / 2
  let ha_close := (c.open_ + c.high + c.low + c.close) / 4
  ⟨c.time, ha_open, max c.high (max ha_open ha_close),
    min c.low (min ha_open ha_close), ha_close⟩

/-- A later synthetic candle (bot.py lines 100-106): `ha_open` is
`(prev.open + prev.close) / 2` of the previous synthetic candle. -/
def haNext (prev c : Candle) : Candle :=
  let ha_open := (prev.open_ + prev.close) / 2
  let ha_close := (c.open_ + c.high + c.low + c.close) / 4
  ⟨c.time, ha_open, max c.high (max ha_open ha_close),
    min c.low (min ha_open ha_close), ha_close⟩

/-- The loop of `convert_to_heikin_ashi` after the first candle, carrying
the last appended synthetic candle (`ha_candles[-1]`). -/
def haGo (prev : Candle) : List Candle → List Candle
  | [] => []
  | c :: rest =>
    let h := haNext prev c
    h :: haGo h rest

/-- Source `convert_to_heikin_ashi` of bot.py lines 95-107. -/
def convert_to_heikin_ashi : List Candle → List Candle
  | [] => []
  | c :: rest =>
    let h := haFirst c
    h :: haGo h rest

/-- The per-stream runtime state of bot.py lines 109-113: the candle deque
(raw candles, capacity `HISTORY_LIMIT`) and `last_alert` (direction of the
last dispatched alert, `None` before the first alert). -/
structure StreamState where
  candles : List Candle
  last_alert : Option Int
deriving DecidableEq, Repr

/-- Source `deque(maxlen=HISTORY_LIMIT).append` (bot.py lines 112 and 125):
append, evicting the oldest candles beyond the capacity. -/
def appendCap (l : List Candle) (c : Candle) : List Candle :=
  let l2 := l ++ [c]
  if HISTORY_LIMIT < l2.length then l2.drop (l2.length - HISTORY_LIMIT) else l2

/-- The candle window handed to `compute_trend` by `Stream.on_kline`
(bot.py lines 125-128): the raw retained window after the append, with
`convert_to_heikin_ashi` applied once when the stream is configured for
Heikin-Ashi candles. -/
def newWindow (useHeikin : Bool) (st : StreamState) (c : Candle) : List Candle :=
  let cs := appendCap st.candles c
  if useHeikin then convert_to_heikin_ashi cs else cs

/-- The trend list computed inside `Stream.on_kline` (bot.py line 130). -/
def trendOf (useHeikin : Bool) (m : ℚ) (st : StreamState) (c : Candle) : List Int :=
  compute_trend (newWindow useHeikin st c) m

/-- Source `curr_dir = trend[-1]` (bot.py line 134). -/
def currOf (useHeikin : Bool) (m : ℚ) (st : StreamState) (c : Candle) : Int :=
  (trendOf useHeikin m st c).getD ((trendOf useHeikin m st c).length - 1) 1

/-- Source `prev_dir = trend[-2]` (bot.py line 134). -/
def prevOf (useHeikin : Bool) (m : ℚ) (st : StreamState) (c : Candle) : Int :=
  (trendOf useHeikin m st c).getD ((trendOf useHeikin m st c).length - 2) 1

/-- Source `send_discord` (bot.py lines 42-44): a bare HTTP POST with no error
handler, so a failing send (modelled by `ok = false`) raises to the
caller. -/
def send_discord (ok : Bool) : Except Unit Unit :=
  if ok then .ok () else .error ()

/-- Source `Stream.on_kline` of bot.py lines 121-152, with the outcome of the
notification POST supplied as `sendOk`.  Returns the new stream state and
whether an alert was dispatched, or `Except.error` when `send_discord`
raised (in which case the `self.last_alert = curr_dir` on line 152 is never
executed, while the candle append on line 125 already happened). -/
def on_kline (sendOk useHeikin : Bool) (m : ℚ) (st : StreamState)
    (closed : Bool) (c : Candle) : Except Unit (StreamState × Bool) :=
  if !closed then .ok (st, false)
  else
    let cs := appendCap st.candles c
    if (trendOf useHeikin m st c).length < 2 then .ok ({ st with candles := cs }, false)
    else
      if currOf useHeikin m st c ≠ prevOf useHeikin m st c ∧
          some (currOf useHeikin m st c) ≠ st.last_alert then
        match send_discord sendOk with
        | .ok _ => .ok ({ candles := cs, last_alert := some (currOf useHeikin m st c) }, true)
        | .error e => .error e
      else .ok ({ st with candles := cs }, false)

/-- One message received from the websocket: the candle and its
`k["x"]` closed flag. -/
structure KMsg where
  closed : Bool
  candle : Candle
deriving DecidableEq, Repr

/-- The `asyncio.sleep(5)` delay of bot.py line 168. -/
def RECONNECT_DELAY : Nat := 5

/-- The `worker` loop of bot.py lines 155-168 run over a finite trace of
socket results (`none` models a null message or transport error).  Returns
the final stream state and the number of reconnect attempts; on every
failure the worker logs, sleeps `RECONNECT_DELAY`, and re-subscribes with
the stream state untouched, then keeps processing.  Successful sends are
assumed (`sendOk = true`); an `on_kline` exception would likewise be caught
and counted as a reconnect, with the candle appended on line 125 retained
(the deque mutation precedes the raising send). -/
def worker_run (useHeikin : Bool) (m : ℚ) (st : StreamState) :
    List (Option KMsg) → StreamState × Nat
  | [] => (st, 0)
  | none :: rest =>
    let r := worker_run useHeikin m st rest
    (r.1, r.2 + 1)
  | some msg :: rest =>
    match on_kline true useHeikin m st msg.closed msg.candle with
    | .ok (s, _) => worker_run useHeikin m s rest
    | .error _ =>
      let r := worker_run useHeikin m
        { st with candles := appendCap st.candles msg.candle } rest
      (r.1, r.2 + 1)

/-- Total seconds slept by the worker across `r` reconnects. -/
def sleepSeconds (r : Nat) : Nat := RECONNECT_DELAY * r

end Bot

namespace CB

open Bot (Candle ATR_PERIOD HISTORY_LIMIT closes closeD highD lowD rollMax rollMin)

/-- Source `(open + high + low + close) / 4` (chandelierbot.py line 88). -/
def ha_close (x : Candle) : ℚ := (x.open_ + x.high + x.low + x.close) / 4

/-- Tail of `heikin_ashi` (chandelierbot.py lines 85-96) given the previous
synthetic open and close: `ha_open[i] = (ha_open[i-1] + ha_close[i-1]) / 2`,
`ha_high = max(high, ha_open, ha_close)`, `ha_low = min(low, ha_open, ha_close)`;
the time column is carried through unchanged. -/
def haGo (prevOpen prevClose : ℚ) : List Candle → List Candle
  | [] => []
  | x :: rest =>
    let o := (prevOpen + prevClose) / 2
    let cl := ha_close x
    ⟨x.time, o, max x.high (max o cl), min x.low (min o cl), cl⟩ :: haGo o cl rest

/-- Source `heikin_ashi` of chandelierbot.py lines 85-96:
`ha_open[0] = (open[0] + close[0]) / 2`, then the chained recurrence. -/
def heikin_ashi : List Candle → List Candle
  | [] => []
  | x :: rest =>
    let o := (x.open_ + x.close) / 2
    let cl := ha_close x
    ⟨x.time, o, max x.high (max o cl), min x.low (min o cl), cl⟩ :: haGo o cl rest

/-- True range of the external `ta` library's `AverageTrueRange`
(chandelierbot.py line 102).  Modelled from that library (its source is not
part of this repository): the previous close is `close.shift(1)`, NaN at
index 0, and the row-wise `max` skips NaN, so `tr[0] = high[0] - low[0]`;
from index 1 on it is the usual three-way maximum. -/
def tr_ta (c : List Candle) (i : Nat) : ℚ :=
  if i = 0 then highD c 0 - lowD c 0
  else
    max (highD c i - lowD c i)
      (max |highD c i - closeD c (i - 1)| |lowD c i - closeD c (i - 1)|)

/-- Wilder ATR of the external `ta` library (chandelierbot.py line 102),
modelled from that library for frames of at least `ATR_PERIOD` rows: the
backing array starts as zeros, index `ATR_PERIOD - 1` holds the simple mean
of the first `ATR_PERIOD` true ranges, later indices use Wilder smoothing.
The `.bfill()` applied in the source is a no-op because the array holds no
NaN.  On frames shorter than `ATR_PERIOD` rows the library call raises
IndexError instead of producing an array — that error path is modelled by
`average_true_range` below, which guards every use of these values. -/
def atr_ta (c : List Candle) : Nat → ℚ
  | 0 => 0
  | i + 1 =>
    if i + 2 < ATR_PERIOD then 0
    else if i + 2 = ATR_PERIOD then
      (((List.range ATR_PERIOD).map (tr_ta c)).sum) / (ATR_PERIOD : ℚ)
    else (atr_ta c i * ((ATR_PERIOD : ℚ) - 1) + tr_ta c (i + 1)) / (ATR_PERIOD : ℚ)

/-- Source `long_stop = c.rolling(ATR_PERIOD).max() - atr_mult * atr`
(chandelierbot.py line 104).  A pandas rolling window shorter than
`ATR_PERIOD` yields NaN (`none`). -/
def long_stop (c : List Candle) (m : ℚ) (i : Nat) : Option ℚ :=
  if ATR_PERIOD - 1 ≤ i ∧ i < c.length then
    some (rollMax (closes c) i - m * atr_ta c i)
  else none

/-- Source `short_stop = c.rolling(ATR_PERIOD).min() + atr_mult * atr`
(chandelierbot.py line 105). -/
def short_stop (c : List Candle) (m : ℚ) (i : Nat) : Option ℚ :=
  if ATR_PERIOD - 1 ≤ i ∧ i < c.length then
    some (rollMin (closes c) i + m * atr_ta c i)
  else none

/-- Source `x > y` where `y` may be NaN; any comparison against NaN is false
(pandas/IEEE semantics). -/
def ogt (x : ℚ) (y : Option ℚ) : Bool :=
  match y with
  | some v => decide (v < x)
  | none => false

/-- Source `x < y` where `y` may be NaN. -/
def olt (x : ℚ) (y : Option ℚ) : Bool :=
  match y with
  | some v => decide (x < v)
  | none => false

/-- Two-argument `max` on possibly-NaN values (only ever reached by the
source on two defined floats). -/
def omax (a b : Option ℚ) : Option ℚ :=
  match a, b with
  | some x, some y => some (max x y)
  | _, _ => none

/-- Two-argument `min` on possibly-NaN values. -/
def omin (a b : Option ℚ) : Option ℚ :=
  match a, b with
  | some x, some y => some (min x y)
  | _, _ => none

/-- Source `long_adj` of chandelierbot.py lines 107-114, loop transliterated to
recursion: entry 0 is the copy `long_stop.copy()`; entry `i ≥ 1` is
`max(long_stop.iloc[i], prev_long) if c.iloc[i-1] > prev_long else
long_stop.iloc[i]` with `prev_long = long_adj.iloc[i-1]`. -/
def long_adj (c : List Candle) (m : ℚ) : Nat → Option ℚ
  | 0 => long_stop c m 0
  | i + 1 =>
    if ogt (closeD c i) (long_adj c m i) then omax (long_stop c m (i + 1)) (long_adj c m i)
    else long_stop c m (i + 1)

/-- Source `short_adj` of chandelierbot.py lines 108-115. -/
def short_adj (c : List Candle) (m : ℚ) : Nat → Option ℚ
  | 0 => short_stop c m 0
  | i + 1 =>
    if olt (closeD c i) (short_adj c m i) then omin (short_stop c m (i + 1)) (short_adj c m i)
    else short_stop c m (i + 1)

/-- The trend value at index `i` (chandelierbot.py lines 109-122): seeded
at `+1`, then `+1` if `c.iloc[i] > prev_short`, `-1` if
`c.iloc[i] < prev_long`, else the previous value. -/
def trendAt (c : List Candle) (m : ℚ) : Nat → Int
  | 0 => 1
  | i + 1 =>
    if ogt (closeD c (i + 1)) (short_adj c m i) then 1
    else if olt (closeD c (i + 1)) (long_adj c m i) then -1
    else trendAt c m i

/-- Source `compute_trend` of chandelierbot.py lines 99-124: the series
`[1]` extended over `range(1, len(df))`.  This is the value produced when
the ta ATR call on line 102 succeeds (frames of at least `ATR_PERIOD`
rows); `compute_trend_run` below includes that call's error path. -/
def compute_trend (c : List Candle) (m : ℚ) : List Int :=
  (List.range (max 1 c.length)).map (trendAt c m)

/-- The `AverageTrueRange(...).average_true_range()` call of
chandelierbot.py line 102, modelled from the external ta library including
its error path: `_run` allocates `atr = np.zeros(len(close))` and then
assigns `atr[window - 1]`, an IndexError (`none`) on any frame shorter
than `ATR_PERIOD` rows; on longer frames it returns the array whose
per-index values are `atr_ta`. -/
def average_true_range (c : List Candle) : Option (Nat → ℚ) :=
  if c.length < ATR_PERIOD then none else some (atr_ta c)

/-- Source `compute_trend` of chandelierbot.py lines 99-124 with the error
path of its ta ATR call (line 102): `none` models the IndexError raised on
frames shorter than `ATR_PERIOD` rows, which propagates out of
`compute_trend` before the stops of lines 104-105 are ever computed. -/
def compute_trend_run (c : List Candle) (m : ℚ) : Option (List Int) :=
  match average_true_range c with
  | none => none
  | some _ => some (compute_trend c m)

/-- The per-stream state of chandelierbot.py lines 127-136: the stored
DataFrame rows (note: after a Heikin-Ashi bootstrap these are already
transformed candles), the last computed direction, and the direction of the
last dispatched alert. -/
structure StreamSt where
  df : List Candle
  last_direction : Option Int
  last_alert_direction : Option Int
deriving DecidableEq, Repr

/-- Source `.tail(HISTORY_LIMIT)` (chandelierbot.py line 170): keep the last
`HISTORY_LIMIT` rows. -/
def takeTail (k : Nat) (l : List Candle) : List Candle := l.drop (l.length - k)

/-- The DataFrame stored by `Stream.bootstrap` (chandelierbot.py lines
139-145): the raw history, overwritten in place by its Heikin-Ashi
transform when the stream is so configured. -/
def bootstrap_df (heikin : Bool) (raws : List Candle) : List Candle :=
  if heikin then heikin_ashi raws else raws

/-- The DataFrame stored (and handed to `compute_trend`) by
`Stream.on_kline` (chandelierbot.py lines 163-175): the raw closed candle
is appended to the *stored* rows, the tail is kept, and `heikin_ashi` is
applied to the result — i.e. to rows that were themselves already
transformed on the previous update. -/
def on_kline_df (heikin : Bool) (df : List Candle) (c : Candle) : List Candle :=
  let df1 := takeTail HISTORY_LIMIT (df ++ [c])
  if heikin then heikin_ashi df1 else df1

/-- Source `send_telegram` (chandelierbot.py lines 74-81): the HTTP POST sits in a
`try`/`except` that only logs, so the caller always gets a normal return
whatever the outcome `ok` of the POST itself. -/
def send_telegram (ok : Bool) : Except Unit Unit :=
  match (if ok then Except.ok () else Except.error ()) with
  | .ok _ => .ok ()
  | .error _ => .ok ()

/-- Source `Stream.on_kline` of chandelierbot.py lines 158-188, with the POST
outcome supplied as `sendOk`.  Returns `none` when `trend.iloc[-2]` does
not exist (an uncaught IndexError on a sub-2-row frame); otherwise the new
state and whether an alert was dispatched.  `last_direction` is updated on
every closed candle (line 188), `last_alert_direction` only on a dispatched
alert (line 186). -/
def on_kline (sendOk heikin : Bool) (m : ℚ) (st : StreamSt)
    (closed : Bool) (c : Candle) : Option (StreamSt × Bool) :=
  if !closed then some (st, false)
  else
    let df1 := on_kline_df heikin st.df c
    let t := compute_trend df1 m
    if t.length < 2 then none
    else
      let curr := t.getD (t.length - 1) 1
      let prev := t.getD (t.length - 2) 1
      if curr ≠ prev ∧ some curr ≠ st.last_alert_direction then
        match send_telegram sendOk with
        | .ok _ =>
          some ({ df := df1, last_direction := some curr, last_alert_direction := some curr }, true)
        | .error _ => none
      else
        some ({ df := df1, last_direction := some curr,
                last_alert_direction := st.last_alert_direction }, false)

/-- The `stream_worker` loop of chandelierbot.py lines 191-198 run over a
finite trace of socket results: a `none` (null message) hits the `break`,
terminating the task and dropping every later message; there is no retry
and no delay.  Returns the final state and the number of processed
messages.  An `on_kline` exception (also `none` here) is uncaught and
likewise terminates the task. -/
def stream_worker_run (heikin : Bool) (m : ℚ) (st : StreamSt) :
    List (Option Bot.KMsg) → StreamSt × Nat
  | [] => (st, 0)
  | none :: _ => (st, 0)
  | some msg :: rest =>
    match on_kline true heikin m st msg.closed msg.candle with
    | some (s, _) =>
      let r := stream_worker_run heikin m s rest
      (r.1, r.2 + 1)
    | none => (st, 0)

end CB

namespace Bot

theorem closes_length (c : List Candle) : (closes c).length = c.length := by
  simp [closes]

theorem closeD_pos (c : List Candle) (hpos : ∀ x ∈ c, 0 < x.close)
    {i : Nat} (h : i < c.length) : 0 < closeD c i := by
  have hlen : i < (closes c).length := by simpa [closes_length] using h
  rw [closeD, List.getD_eq_getElem _ _ hlen]
  simp only [closes, List.getElem_map]
  exact hpos _ (List.getElem_mem h)

theorem closeD_of_ge (c : List Candle) {i : Nat} (h : c.length ≤ i) :
    closeD c i = 0 := by
  have hlen : (closes c).length ≤ i := by simpa [closes_length] using h
  simp [closeD, List.getD_eq_getElem?_getD, List.getElem?_eq_none hlen]

theorem trendAt_cases (c : List Candle) (m : ℚ) :
    ∀ i, trendAt c m i = 1 ∨ trendAt c m i = -1 := by
  intro i
  induction i with
  | zero => left; rfl
  | succ j ih =>
    rw [trendAt]
    split
    · left; rfl
    · split
      · right; rfl
      · exact ih

theorem compute_trend_getD (c : List Candle) (m : ℚ) (d : Int)
    {i : Nat} (h : i < max 1 c.length) :
    (compute_trend c m).getD i d = trendAt c m i := by
  have h' : i < (List.range (max 1 c.length)).length := by simpa using h
  rw [compute_trend, List.getD_eq_getElem _ _ (by simpa using h')]
  simp

theorem atr_defined (c : List Candle) :
    ∀ i, ATR_PERIOD - 1 ≤ i → ∃ a, atr c i = some a := by
  intro i hi
  induction i, hi using Nat.le_induction with
  | base => exact ⟨_, rfl⟩
  | succ j hj ih =>
    obtain ⟨a, ha⟩ := ih
    refine ⟨(a * ((ATR_PERIOD : ℚ) - 1) + trVal c (j + 1)) / (ATR_PERIOD : ℚ), ?_⟩
    rw [atr]
    rw [if_neg (by simp only [ATR_PERIOD] at hj ⊢; omega),
      if_neg (by simp only [ATR_PERIOD] at hj ⊢; omega), ha]
    rfl

end Bot

/-- C10: for every input candle list, including the empty list, bot.py's
`compute_trend` returns a list of length `max 1 n` whose first element is
`+1` and whose elements all lie in `{+1, -1}`; on the empty window the
output is `[+1]`, whose length exceeds the input length. -/
theorem C10_output_shape (c : List Bot.Candle) (m : ℚ) :
    Bot.compute_trend [] m = [1] ∧
    (Bot.compute_trend c m).length = max 1 c.length ∧
    (Bot.compute_trend c m).getD 0 0 = 1 ∧
    (∀ x ∈ Bot.compute_trend c m, x = 1 ∨ x = -1) ∧
    ([] : List Bot.Candle).length < (Bot.compute_trend [] m).length := by
  refine ⟨rfl, by simp [Bot.compute_trend], ?_, ?_, by simp [Bot.compute_trend]⟩
  · rw [Bot.compute_trend_getD c m 0 (Nat.lt_of_lt_of_le Nat.zero_lt_one (le_max_left 1 _))]
    rfl
  · intro x hx
    simp only [Bot.compute_trend, List.mem_map, List.mem_range] at hx
    obtain ⟨i, _, rfl⟩ := hx
    exact Bot.trendAt_cases c m i

/-- C4: in bot.py's `compute_trend` (ATR period 22) the true range at `i`
is `max(high-low, |high - close[i-1]|, |low - close[i-1]|)` with `close[-1]`
taken as `close[0]` at index 0; `atr[i]` is `None` for `i < 21`; `atr[21]`
is exactly the arithmetic mean of the first 22 true ranges; and for
`i ≥ 22`, `atr[i] = (atr[i-1]*21 + tr[i]) / 22` (Wilder smoothing). -/
theorem C4_atr_wilder (c : List Bot.Candle) (i : Nat) (h : i < c.length) :
    Bot.trVal c i =
      max (Bot.highD c i - Bot.lowD c i)
        (max |Bot.highD c i - (if i = 0 then Bot.closeD c 0 else Bot.closeD c (i - 1))|
          |Bot.lowD c i - (if i = 0 then Bot.closeD c 0 else Bot.closeD c (i - 1))|) ∧
    (i < Bot.ATR_PERIOD - 1 → Bot.atr c i = none) ∧
    (i = Bot.ATR_PERIOD - 1 →
      Bot.atr c i =
        some ((((List.range Bot.ATR_PERIOD).map (Bot.trVal c)).sum) / (Bot.ATR_PERIOD : ℚ))) ∧
    (Bot.ATR_PERIOD ≤ i → ∃ a, Bot.atr c (i - 1) = some a ∧
      Bot.atr c i =
        some ((a * ((Bot.ATR_PERIOD : ℚ) - 1) + Bot.trVal c i) / (Bot.ATR_PERIOD : ℚ))) := by
  refine ⟨by rw [Bot.trVal, Bot.prev_close], ?_, ?_, ?_⟩
  · intro hlt
    match i, hlt with
    | 0, _ => rfl
    | j + 1, hlt =>
      rw [Bot.atr, if_pos (by simp only [Bot.ATR_PERIOD] at hlt ⊢; omega)]
  · intro heq
    subst heq
    rfl
  · intro hge
    have h21 : Bot.ATR_PERIOD - 1 ≤ i - 1 := by
      simp only [Bot.ATR_PERIOD] at hge ⊢; omega
    obtain ⟨a, ha⟩ := Bot.atr_defined c (i - 1) h21
    obtain ⟨j, rfl⟩ : ∃ j, i = j + 1 := ⟨i - 1, by simp only [Bot.ATR_PERIOD] at hge; omega⟩
    refine ⟨a, ha, ?_⟩
    rw [Bot.atr,
      if_neg (by simp only [Bot.ATR_PERIOD] at hge ⊢; omega),
      if_neg (by simp only [Bot.ATR_PERIOD] at hge ⊢; omega)]
    have ha' : Bot.atr c j = some a := ha
    rw [ha']
    rfl

/-- Concrete 23-candle window used by the C4 witness. -/
def C4w : List Bot.Candle := (List.range 23).map (fun k => ⟨(k : Int), 1, 1, 1, 1⟩)

/-- Witness for C4 at index 21 of a concrete 23-candle window. -/
theorem C4_atr_wilder_witness :
    (21 : Nat) < C4w.length ∧
    Bot.atr C4w 21 =
      some ((((List.range Bot.ATR_PERIOD).map (Bot.trVal C4w)).sum) / (Bot.ATR_PERIOD : ℚ)) :=
  ⟨by decide, (C4_atr_wilder C4w 21 (by decide)).2.2.1 rfl⟩

/-- C3: in both variants the adjusted stops obey the ratchet recurrence:
they start from the raw stops (a copy at index 0) and, in ascending index
order, `long_adj[i]` is `max(long_stop[i], long_adj[i-1])` when
`close[i-1] > long_adj[i-1]` and `long_stop[i]` otherwise; symmetrically
`short_adj[i]` is `min(short_stop[i], short_adj[i-1])` when
`close[i-1] < short_adj[i-1]` and `short_stop[i]` otherwise.  For
chandelierbot.py the recurrence is stated on defined (non-NaN) values. -/
theorem C3_ratchet (c : List Bot.Candle) (m : ℚ) (i : Nat)
    (h1 : 1 ≤ i) (h2 : i < c.length) :
    Bot.long_adj c m 0 = Bot.long_stop c m 0 ∧
    Bot.short_adj c m 0 = Bot.short_stop c m 0 ∧
    Bot.long_adj c m i =
      (if Bot.closeD c (i - 1) > Bot.long_adj c m (i - 1) then
        max (Bot.long_stop c m i) (Bot.long_adj c m (i - 1))
      else Bot.long_stop c m i) ∧
    Bot.short_adj c m i =
      (if Bot.closeD c (i - 1) < Bot.short_adj c m (i - 1) then
        min (Bot.short_stop c m i) (Bot.short_adj c m (i - 1))
      else Bot.short_stop c m i) ∧
    (∀ l ls, CB.long_adj c m (i - 1) = some l → CB.long_stop c m i = some ls →
      CB.long_adj c m i = some (if Bot.closeD c (i - 1) > l then max ls l else ls)) ∧
    (∀ s ss, CB.short_adj c m (i - 1) = some s → CB.short_stop c m i = some ss →
      CB.short_adj c m i = some (if Bot.closeD c (i - 1) < s then min ss s else ss)) := by
  obtain ⟨j, rfl⟩ : ∃ j, i = j + 1 := ⟨i - 1, by omega⟩
  refine ⟨rfl, rfl, by simp only [Nat.add_sub_cancel]; rw [Bot.long_adj],
    by simp only [Nat.add_sub_cancel]; rw [Bot.short_adj], ?_, ?_⟩
  · intro l ls hl hls
    rw [CB.long_adj]
    simp only [Nat.add_sub_cancel] at hl
    rw [hl, hls]
    simp only [CB.ogt, CB.omax]
    split
    · rename_i hcond
      rw [if_pos (by simpa using hcond)]
    · rename_i hcond
      rw [if_neg (by simpa using hcond)]
  · intro s ss hs hss
    rw [CB.short_adj]
    simp only [Nat.add_sub_cancel] at hs
    rw [hs, hss]
    simp only [CB.olt, CB.omin]
    split
    · rename_i hcond
      rw [if_pos (by simpa using hcond)]
    · rename_i hcond
      rw [if_neg (by simpa using hcond)]

/-- Concrete 23-candle window used by the C3 witness. -/
def C3w : List Bot.Candle :=
  (List.range 23).map (fun k => ⟨(k : Int), k, (k : ℚ) + 2, (k : ℚ) - 1, (k : ℚ) + 1⟩)

/-- Witness for C3 at index 22 of a concrete 23-candle window. -/
theorem C3_ratchet_witness :
    (1 : Nat) ≤ 22 ∧ (22 : Nat) < C3w.length ∧
    Bot.long_adj C3w 3 22 =
      (if Bot.closeD C3w 21 > Bot.long_adj C3w 3 21 then
        max (Bot.long_stop C3w 3 22) (Bot.long_adj C3w 3 21)
      else Bot.long_stop C3w 3 22) :=
  ⟨by decide, by decide, (C3_ratchet C3w 3 22 (by decide) (by decide)).2.2.1⟩

/-- C2: in both variants the direction output satisfies `trend[0] = +1`
and, for `1 ≤ i < n`, `trend[i] = +1` if `close[i] > short_adj[i-1]`, else
`-1` if `close[i] < long_adj[i-1]`, else `trend[i-1]`; both comparisons are
strict, so a close exactly equal to the opposing adjusted stop (and not
breaching the other) holds the previous direction.  For chandelierbot.py
the rule is stated on defined (non-NaN) stops. -/
theorem C2_direction (c : List Bot.Candle) (m : ℚ) (i : Nat)
    (h1 : 1 ≤ i) (h2 : i < c.length) :
    (Bot.compute_trend c m).getD 0 0 = 1 ∧
    (Bot.compute_trend c m).getD i 0 =
      (if Bot.closeD c i > Bot.short_adj c m (i - 1) then 1
       else if Bot.closeD c i < Bot.long_adj c m (i - 1) then -1
       else (Bot.compute_trend c m).getD (i - 1) 0) ∧
    (Bot.closeD c i = Bot.short_adj c m (i - 1) →
      ¬ Bot.closeD c i < Bot.long_adj c m (i - 1) →
      (Bot.compute_trend c m).getD i 0 = (Bot.compute_trend c m).getD (i - 1) 0) ∧
    (Bot.closeD c i = Bot.long_adj c m (i - 1) →
      ¬ Bot.closeD c i > Bot.short_adj c m (i - 1) →
      (Bot.compute_trend c m).getD i 0 = (Bot.compute_trend c m).getD (i - 1) 0) ∧
    (∀ s l, CB.short_adj c m (i - 1) = some s → CB.long_adj c m (i - 1) = some l →
      CB.trendAt c m i =
        (if Bot.closeD c i > s then 1
         else if Bot.closeD c i < l then -1
         else CB.trendAt c m (i - 1))) := by
  obtain ⟨j, rfl⟩ : ∃ j, i = j + 1 := ⟨i - 1, by omega⟩
  simp only [Nat.add_sub_cancel]
  have hi : j + 1 < max 1 c.length := lt_of_lt_of_le h2 (le_max_right 1 _)
  have hj : j < max 1 c.length := Nat.lt_of_succ_lt hi
  have hchar : (Bot.compute_trend c m).getD (j + 1) 0 =
      (if Bot.closeD c (j + 1) > Bot.short_adj c m j then 1
       else if Bot.closeD c (j + 1) < Bot.long_adj c m j then -1
       else (Bot.compute_trend c m).getD j 0) := by
    rw [Bot.compute_trend_getD c m 0 hi, Bot.compute_trend_getD c m 0 hj, Bot.trendAt]
  refine ⟨?_, hchar, ?_, ?_, ?_⟩
  · rw [Bot.compute_trend_getD c m 0 (Nat.lt_of_lt_of_le Nat.zero_lt_one (le_max_left 1 _))]
    rfl
  · intro heq hnl
    rw [hchar, if_neg (by rw [heq]; exact lt_irrefl _), if_neg hnl]
  · intro heq hns
    rw [hchar, if_neg hns, if_neg (by rw [heq]; exact lt_irrefl _)]
  · intro s l hs hl
    rw [CB.trendAt, hs, hl]
    simp only [CB.ogt, CB.olt, decide_eq_true_eq, gt_iff_lt]

/-- Concrete 23-candle window used by the C2 witness. -/
def C2w : List Bot.Candle :=
  (List.range 23).map (fun k => ⟨(k : Int), k, (k : ℚ) + 2, (k : ℚ) - 1, (k : ℚ) + 1⟩)

/-- Witness for C2 at index 22 of a concrete 23-candle window. -/
theorem C2_direction_witness :
    (1 : Nat) ≤ 22 ∧ (22 : Nat) < C2w.length ∧
    (Bot.compute_trend C2w 3).getD 22 0 =
      (if Bot.closeD C2w 22 > Bot.short_adj C2w 3 21 then 1
       else if Bot.closeD C2w 22 < Bot.long_adj C2w 3 21 then -1
       else (Bot.compute_trend C2w 3).getD 21 0) :=
  ⟨by decide, by decide, (C2_direction C2w 3 22 (by decide) (by decide)).2.1⟩

namespace Bot

theorem bot_on_kline_true_eq (u : Bool) (m : ℚ) (st : StreamState) (c : Candle)
    (h2 : 2 ≤ (trendOf u m st c).length) :
    on_kline true u m st true c =
      .ok (if currOf u m st c ≠ prevOf u m st c ∧ some (currOf u m st c) ≠ st.last_alert
        then ({ candles := appendCap st.candles c, last_alert := some (currOf u m st c) }, true)
        else ({ st with candles := appendCap st.candles c }, false)) := by
  rw [on_kline]
  simp only [Bool.not_true]
  rw [if_neg (by simp), if_neg (by omega)]
  split
  · rfl
  · rfl

end Bot

namespace CB

/-- The trend series computed by `Stream.on_kline` (chandelierbot.py
line 175), on the stored-and-retransformed frame. -/
def trendOf (hk : Bool) (m : ℚ) (st : StreamSt) (c : Bot.Candle) : List Int :=
  compute_trend (on_kline_df hk st.df c) m

/-- Source `curr_dir = trend.iloc[-1]` (chandelierbot.py line 176). -/
def currOf (hk : Bool) (m : ℚ) (st : StreamSt) (c : Bot.Candle) : Int :=
  (trendOf hk m st c).getD ((trendOf hk m st c).length - 1) 1

/-- Source `prev_dir = trend.iloc[-2]` (chandelierbot.py line 176). -/
def prevOf (hk : Bool) (m : ℚ) (st : StreamSt) (c : Bot.Candle) : Int :=
  (trendOf hk m st c).getD ((trendOf hk m st c).length - 2) 1

theorem cb_on_kline_true_eq (hk : Bool) (m : ℚ) (st : StreamSt) (c : Bot.Candle)
    (h2 : 2 ≤ (trendOf hk m st c).length) :
    on_kline true hk m st true c =
      some (if currOf hk m st c ≠ prevOf hk m st c ∧
          some (currOf hk m st c) ≠ st.last_alert_direction
        then ({ df := on_kline_df hk st.df c, last_direction := some (currOf hk m st c),
                last_alert_direction := some (currOf hk m st c) }, true)
        else ({ df := on_kline_df hk st.df c, last_direction := some (currOf hk m st c),
                last_alert_direction := st.last_alert_direction }, false)) := by
  simp only [trendOf] at h2
  rw [on_kline]
  simp only [Bool.not_true]
  rw [if_neg (by simp), if_neg (by omega)]
  simp only [currOf, prevOf, trendOf]
  split
  · rfl
  · rfl

end CB

/-- C1: on each closed-candle event both stream coordinators dispatch a
notification iff the newly computed direction differs from the previous one
AND from the last dispatched alert's direction; `last_alert` is updated
only on an actual dispatch; hence a second computed flip landing on the
direction of the last dispatched alert never produces a second
notification. -/
theorem C1_flip_dedup (u : Bool) (m : ℚ) (st : Bot.StreamState) (c₁ c₂ : Bot.Candle)
    (r₁ r₂ : Bot.StreamState × Bool)
    (e₁ : Bot.on_kline true u m st true c₁ = .ok r₁)
    (e₂ : Bot.on_kline true u m r₁.1 true c₂ = .ok r₂)
    (h₁ : 2 ≤ (Bot.trendOf u m st c₁).length)
    (h₂ : 2 ≤ (Bot.trendOf u m r₁.1 c₂).length) :
    (r₁.2 = true ↔
      (Bot.currOf u m st c₁ ≠ Bot.prevOf u m st c₁ ∧
        some (Bot.currOf u m st c₁) ≠ st.last_alert)) ∧
    r₁.1.last_alert = (if r₁.2 then some (Bot.currOf u m st c₁) else st.last_alert) ∧
    (r₁.2 = true → Bot.currOf u m r₁.1 c₂ = Bot.currOf u m st c₁ → r₂.2 = false) ∧
    (∀ (st' : CB.StreamSt) (c : Bot.Candle) (r : CB.StreamSt × Bool),
      CB.on_kline true u m st' true c = some r →
      2 ≤ (CB.trendOf u m st' c).length →
      ((r.2 = true ↔
        (CB.currOf u m st' c ≠ CB.prevOf u m st' c ∧
          some (CB.currOf u m st' c) ≠ st'.last_alert_direction)) ∧
       r.1.last_alert_direction =
         (if r.2 then some (CB.currOf u m st' c) else st'.last_alert_direction) ∧
       (r.2 = true →
        ∀ (c' : Bot.Candle) (r' : CB.StreamSt × Bool),
          CB.on_kline true u m r.1 true c' = some r' →
          2 ≤ (CB.trendOf u m r.1 c').length →
          CB.currOf u m r.1 c' = CB.currOf u m st' c → r'.2 = false))) := by
  rw [Bot.bot_on_kline_true_eq u m st c₁ h₁] at e₁
  replace e₁ := Except.ok.inj e₁
  constructor
  · by_cases hcond :
      Bot.currOf u m st c₁ ≠ Bot.prevOf u m st c₁ ∧ some (Bot.currOf u m st c₁) ≠ st.last_alert
    · rw [if_pos hcond] at e₁
      rw [← e₁]
      simpa using hcond
    · rw [if_neg hcond] at e₁
      rw [← e₁]
      simpa using hcond
  constructor
  · by_cases hcond :
      Bot.currOf u m st c₁ ≠ Bot.prevOf u m st c₁ ∧ some (Bot.currOf u m st c₁) ≠ st.last_alert
    · rw [if_pos hcond] at e₁
      rw [← e₁]
      rfl
    · rw [if_neg hcond] at e₁
      rw [← e₁]
      rfl
  constructor
  · intro hdisp hsame
    by_cases hcond :
      Bot.currOf u m st c₁ ≠ Bot.prevOf u m st c₁ ∧ some (Bot.currOf u m st c₁) ≠ st.last_alert
    · rw [if_pos hcond] at e₁
      rw [Bot.bot_on_kline_true_eq u m r₁.1 c₂ h₂] at e₂
      replace e₂ := Except.ok.inj e₂
      have hla : r₁.1.last_alert = some (Bot.currOf u m st c₁) := by rw [← e₁]
      have hcond2 : ¬ (Bot.currOf u m r₁.1 c₂ ≠ Bot.prevOf u m r₁.1 c₂ ∧
          some (Bot.currOf u m r₁.1 c₂) ≠ r₁.1.last_alert) := by
        rw [hla, hsame]
        simp
      rw [if_neg hcond2] at e₂
      rw [← e₂]
    · rw [if_neg hcond] at e₁
      rw [← e₁] at hdisp
      simp at hdisp
  · intro st' c r e h2'
    rw [CB.cb_on_kline_true_eq u m st' c h2'] at e
    replace e := Option.some.inj e
    constructor
    · by_cases hcond :
        CB.currOf u m st' c ≠ CB.prevOf u m st' c ∧
          some (CB.currOf u m st' c) ≠ st'.last_alert_direction
      · rw [if_pos hcond] at e
        rw [← e]
        simpa using hcond
      · rw [if_neg hcond] at e
        rw [← e]
        simpa using hcond
    constructor
    · by_cases hcond :
        CB.currOf u m st' c ≠ CB.prevOf u m st' c ∧
          some (CB.currOf u m st' c) ≠ st'.last_alert_direction
      · rw [if_pos hcond] at e
        rw [← e]
        rfl
      · rw [if_neg hcond] at e
        rw [← e]
        rfl
    · intro hdisp c' r' e' h2'' hsame
      by_cases hcond :
        CB.currOf u m st' c ≠ CB.prevOf u m st' c ∧
          some (CB.currOf u m st' c) ≠ st'.last_alert_direction
      · rw [if_pos hcond] at e
        rw [CB.cb_on_kline_true_eq u m r.1 c' h2''] at e'
        replace e' := Option.some.inj e'
        have hla : r.1.last_alert_direction = some (CB.currOf u m st' c) := by rw [← e]
        have hcond2 : ¬ (CB.currOf u m r.1 c' ≠ CB.prevOf u m r.1 c' ∧
            some (CB.currOf u m r.1 c') ≠ r.1.last_alert_direction) := by
          rw [hla, hsame]
          simp
        rw [if_neg hcond2] at e'
        rw [← e']
      · rw [if_neg hcond] at e
        rw [← e] at hdisp
        simp at hdisp

/-- Concrete candles and states used by the C1 witness. -/
def C1c0 : Bot.Candle := ⟨0, 1, 1, 1, 1⟩

def C1c1 : Bot.Candle := ⟨1, -1, -1, -1, -1⟩

def C1c2 : Bot.Candle := ⟨2, -1, -1, -1, -1⟩

def C1st : Bot.StreamState := ⟨[C1c0], none⟩

def C1r1 : Bot.StreamState × Bool := (⟨[C1c0, C1c1], some (-1)⟩, true)

def C1r2 : Bot.StreamState × Bool := (⟨[C1c0, C1c1, C1c2], some (-1)⟩, false)

/-- Witness for C1 on a concrete two-event run with a flip to `-1`. -/
theorem C1_flip_dedup_witness :
    Bot.on_kline true false 3 C1st true C1c1 = .ok C1r1 ∧
    Bot.on_kline true false 3 C1r1.1 true C1c2 = .ok C1r2 ∧
    2 ≤ (Bot.trendOf false 3 C1st C1c1).length ∧
    2 ≤ (Bot.trendOf false 3 C1r1.1 C1c2).length ∧
    (C1r1.2 = true ↔
      (Bot.currOf false 3 C1st C1c1 ≠ Bot.prevOf false 3 C1st C1c1 ∧
        some (Bot.currOf false 3 C1st C1c1) ≠ C1st.last_alert)) :=
  ⟨by rfl, by rfl, by decide, by decide,
    (C1_flip_dedup false 3 C1st C1c1 C1c2 C1r1 C1r2
      (by rfl) (by rfl) (by decide) (by decide)).1⟩

/-- Concrete raw candles for the C6 failing input. -/
def C6r0 : Bot.Candle := ⟨0, 1, 9, 1, 5⟩

def C6r1 : Bot.Candle := ⟨1, 5, 7, 3, 6⟩

/-- C6, failing-input evaluation: for a Heikin-Ashi stream bootstrapped on
the raw history `[C6r0]` and then fed the closed raw candle `C6r1`,
chandelierbot.py hands the Trend Engine a window different from the
Heikin-Ashi transform of the raw retained window `[C6r0, C6r1]` — its
stored frame already holds transformed candles and `heikin_ashi` is applied
to them again.  bot.py, on the same events, hands exactly the
once-transformed raw window, and the two variants' Heikin-Ashi transforms
agree on the raw window, so the discrepancy is purely the double
application. -/
theorem C6_double_heikin_ashi :
    CB.on_kline_df true (CB.bootstrap_df true [C6r0]) C6r1 ≠ CB.heikin_ashi [C6r0, C6r1] ∧
    Bot.newWindow true ⟨[C6r0], none⟩ C6r1 = Bot.convert_to_heikin_ashi [C6r0, C6r1] ∧
    Bot.convert_to_heikin_ashi [C6r0, C6r1] = CB.heikin_ashi [C6r0, C6r1] := by
  refine ⟨?_, ?_, ?_⟩
  · simp only [CB.on_kline_df, CB.bootstrap_df, CB.heikin_ashi, CB.haGo, CB.ha_close,
      CB.takeTail, Bot.HISTORY_LIMIT, C6r0, C6r1]
    norm_num
  · norm_num [Bot.newWindow, Bot.appendCap, Bot.HISTORY_LIMIT]
  · norm_num [Bot.convert_to_heikin_ashi, Bot.haGo, Bot.haFirst, Bot.haNext,
      CB.heikin_ashi, CB.haGo, CB.ha_close, C6r0, C6r1]

/-- Concrete 10-candle all-positive history for C7. -/
def C7w : List Bot.Candle := (List.range 10).map (fun k => ⟨(k : Int), 1, 1, 1, 1⟩)

/-- C7, counterexample: on a 10-candle positive history chandelierbot.py
does not bootstrap without error — the ta library's `AverageTrueRange` call
on line 102 raises IndexError (`atr[ATR_PERIOD - 1]` into a length-10
zeros array), so `compute_trend` aborts before any stop level or trend
value is computed. -/
theorem C7_ta_raises :
    CB.average_true_range C7w = none ∧ CB.compute_trend_run C7w 3 = none :=
  ⟨rfl, rfl⟩

/-- C7, amended: for every history with `0 < n < ATR_PERIOD` and positive
closes, bot.py's engine completes with `0.0` long/short stop levels at
every index and an all-`+1` trend; chandelierbot.py's engine does not
complete — its ta ATR call raises on any frame shorter than `ATR_PERIOD`
rows, aborting `compute_trend` before any stop level is computed. -/
theorem C7_short_history (c : List Bot.Candle) (m : ℚ)
    (h0 : 0 < c.length) (hn : c.length < Bot.ATR_PERIOD)
    (hpos : ∀ x ∈ c, 0 < x.close) :
    (∀ i, Bot.long_stop c m i = 0 ∧ Bot.short_stop c m i = 0) ∧
    Bot.compute_trend c m = List.replicate c.length 1 ∧
    CB.average_true_range c = none ∧
    CB.compute_trend_run c m = none := by
  have hstop : ∀ i, Bot.long_stop c m i = 0 ∧ Bot.short_stop c m i = 0 := by
    intro i
    constructor
    · rw [Bot.long_stop, if_neg]
      rintro ⟨ha, hb⟩
      simp only [Bot.ATR_PERIOD] at ha hn
      omega
    · rw [Bot.short_stop, if_neg]
      rintro ⟨ha, hb⟩
      simp only [Bot.ATR_PERIOD] at ha hn
      omega
  have hadj : ∀ i, Bot.long_adj c m i = 0 ∧ Bot.short_adj c m i = 0 := by
    intro i
    induction i with
    | zero => exact ⟨(hstop 0).1, (hstop 0).2⟩
    | succ j ih =>
      constructor
      · rw [Bot.long_adj]
        rw [ih.1, (hstop (j + 1)).1]
        split <;> simp
      · rw [Bot.short_adj]
        rw [ih.2, (hstop (j + 1)).2]
        split <;> simp
  have htrend : ∀ i, i < c.length → Bot.trendAt c m i = 1 := by
    intro i
    induction i with
    | zero => intro _; rfl
    | succ j ih =>
      intro hij
      rw [Bot.trendAt, if_pos]
      rw [(hadj j).2]
      exact Bot.closeD_pos c hpos hij
  have hmax : max 1 c.length = c.length := by omega
  have hraise : CB.average_true_range c = none := by
    rw [CB.average_true_range, if_pos hn]
  refine ⟨hstop, ?_, hraise, ?_⟩
  · rw [List.eq_replicate_iff]
    refine ⟨by simp [Bot.compute_trend, hmax], ?_⟩
    intro x hx
    simp only [Bot.compute_trend, hmax, List.mem_map, List.mem_range] at hx
    obtain ⟨i, hi, rfl⟩ := hx
    exact htrend i hi
  · rw [CB.compute_trend_run, hraise]

/-- Witness for C7 on the concrete 10-candle history. -/
theorem C7_short_history_witness :
    0 < C7w.length ∧ C7w.length < Bot.ATR_PERIOD ∧ (∀ x ∈ C7w, 0 < x.close) ∧
    Bot.compute_trend C7w 3 = List.replicate C7w.length 1 ∧
    CB.compute_trend_run C7w 3 = none :=
  ⟨by decide, by decide, by decide,
    (C7_short_history C7w 3 (by decide) (by decide) (by decide)).2.1,
    (C7_short_history C7w 3 (by decide) (by decide) (by decide)).2.2.2⟩

/-- Concrete message and state for the C8 counterexample. -/
def C8msg : Bot.KMsg := ⟨true, ⟨1, 1, 1, 1, 1⟩⟩

def C8st : CB.StreamSt := ⟨[], none, none⟩

/-- C8, counterexample: chandelierbot.py's `stream_worker` hits `break` on
a null socket message and terminates: the stream state is frozen, zero
messages are processed afterwards, and no reconnect is ever attempted —
the stream is silently dropped, contradicting the claimed
retry-indefinitely behaviour for every stream. -/
theorem C8_silent_drop :
    CB.stream_worker_run false 3 C8st [none, some C8msg] = (C8st, 0) := by
  rfl

/-- C8, amended: bot.py's `worker` does behave as claimed — over any trace,
a transport failure (null message) adds exactly one reconnect attempt with
a fixed `RECONNECT_DELAY = 5` second sleep, leaves the stream state (candle
buffer and `last_alert`) untouched, and processing continues with the rest
of the feed, for arbitrarily many failures; chandelierbot.py's
`stream_worker` instead terminates on a null message (see the
counterexample). -/
theorem C8_worker_retry (u : Bool) (m : ℚ) (st : Bot.StreamState)
    (t1 t2 : List (Option Bot.KMsg)) :
    Bot.RECONNECT_DELAY = 5 ∧
    Bot.worker_run u m st (t1 ++ none :: t2) =
      ((Bot.worker_run u m (Bot.worker_run u m st t1).1 t2).1,
        (Bot.worker_run u m st t1).2 + (Bot.worker_run u m (Bot.worker_run u m st t1).1 t2).2 + 1) ∧
    Bot.sleepSeconds (Bot.worker_run u m st (t1 ++ none :: t2)).2 =
      Bot.RECONNECT_DELAY * (Bot.worker_run u m st (t1 ++ none :: t2)).2 := by
  have h2 : ∀ (st : Bot.StreamState),
      Bot.worker_run u m st (t1 ++ none :: t2) =
        ((Bot.worker_run u m (Bot.worker_run u m st t1).1 t2).1,
          (Bot.worker_run u m st t1).2 +
            (Bot.worker_run u m (Bot.worker_run u m st t1).1 t2).2 + 1) := by
    induction t1 with
    | nil =>
      intro st
      simp [Bot.worker_run]
    | cons a t1 ih =>
      intro st
      cases a with
      | none =>
        have e1 : Bot.worker_run u m st (none :: (t1 ++ none :: t2)) =
            ((Bot.worker_run u m st (t1 ++ none :: t2)).1,
              (Bot.worker_run u m st (t1 ++ none :: t2)).2 + 1) := rfl
        have e2 : Bot.worker_run u m st (none :: t1) =
            ((Bot.worker_run u m st t1).1, (Bot.worker_run u m st t1).2 + 1) := rfl
        rw [List.cons_append, e1, ih st, e2]
        rw [Prod.ext_iff]
        exact ⟨rfl, by simp; omega⟩
      | some msg =>
        cases hk : Bot.on_kline true u m st msg.closed msg.candle with
        | ok p =>
          have e1 : Bot.worker_run u m st (some msg :: (t1 ++ none :: t2)) =
              Bot.worker_run u m p.1 (t1 ++ none :: t2) := by
            simp [Bot.worker_run, hk]
          have e2 : Bot.worker_run u m st (some msg :: t1) =
              Bot.worker_run u m p.1 t1 := by
            simp [Bot.worker_run, hk]
          rw [List.cons_append, e1, e2]
          exact ih p.1
        | error e =>
          have e1 : Bot.worker_run u m st (some msg :: (t1 ++ none :: t2)) =
              ((Bot.worker_run u m
                  { st with candles := Bot.appendCap st.candles msg.candle }
                  (t1 ++ none :: t2)).1,
                (Bot.worker_run u m
                  { st with candles := Bot.appendCap st.candles msg.candle }
                  (t1 ++ none :: t2)).2 + 1) := by
            simp [Bot.worker_run, hk]
          have e2 : Bot.worker_run u m st (some msg :: t1) =
              ((Bot.worker_run u m
                  { st with candles := Bot.appendCap st.candles msg.candle } t1).1,
                (Bot.worker_run u m
                  { st with candles := Bot.appendCap st.candles msg.candle } t1).2 + 1) := by
            simp [Bot.worker_run, hk]
          rw [List.cons_append, e1,
            ih { st with candles := Bot.appendCap st.candles msg.candle }, e2]
          rw [Prod.ext_iff]
          exact ⟨rfl, by simp; omega⟩
  exact ⟨rfl, h2 st, rfl⟩

/-- Concrete flip scenario for the C9 counterexample. -/
def C9c0 : Bot.Candle := ⟨0, 1, 1, 1, 1⟩

def C9c1 : Bot.Candle := ⟨1, -1, -1, -1, -1⟩

def C9st : Bot.StreamState := ⟨[C9c0], none⟩

/-- C9, counterexample: in bot.py a failing notification POST is not
swallowed — `send_discord` has no handler, so on a qualifying flip the
error propagates out of `on_kline`, aborting that event's processing
(and skipping the `last_alert` update on line 152). -/
theorem C9_send_error_propagates :
    Bot.on_kline false false 3 C9st true C9c1 = Except.error () := by
  rfl

/-- C9, amended: chandelierbot.py's `send_telegram` swallows every send
failure (the caller always sees a normal return, and `on_kline` behaves
identically whatever the POST outcome); bot.py's `send_discord` instead
propagates, and `on_kline` with a failing send raises exactly when it
attempts a dispatch (the worker's reconnect loop then catches the error,
so it is not process-fatal). -/
theorem C9_notify_error_handling :
    (∀ ok, CB.send_telegram ok = Except.ok ()) ∧
    (∀ (ok₁ ok₂ hk : Bool) (m : ℚ) (st : CB.StreamSt) (closed : Bool) (c : Bot.Candle),
      CB.on_kline ok₁ hk m st closed c = CB.on_kline ok₂ hk m st closed c) ∧
    (∀ (u : Bool) (m : ℚ) (st : Bot.StreamState) (c : Bot.Candle),
      Bot.on_kline false u m st true c = Except.error () ↔
        (2 ≤ (Bot.trendOf u m st c).length ∧
          Bot.currOf u m st c ≠ Bot.prevOf u m st c ∧
          some (Bot.currOf u m st c) ≠ st.last_alert)) := by
  refine ⟨?_, ?_, ?_⟩
  · intro ok
    cases ok <;> rfl
  · intro ok₁ ok₂ hk m st closed c
    cases ok₁ <;> cases ok₂ <;> rfl
  · intro u m st c
    rw [Bot.on_kline]
    simp only [Bool.not_true]
    rw [if_neg (by simp)]
    by_cases hlen : (Bot.trendOf u m st c).length < 2
    · rw [if_pos hlen]
      simp only [reduceCtorEq, false_iff, not_and]
      intro h2
      omega
    · rw [if_neg hlen]
      by_cases hcond : Bot.currOf u m st c ≠ Bot.prevOf u m st c ∧
          some (Bot.currOf u m st c) ≠ st.last_alert
      · rw [if_pos hcond]
        simp only [Bot.send_discord, Bool.false_eq_true, if_false, true_iff]
        exact ⟨by omega, hcond.1, hcond.2⟩
      · rw [if_neg hcond]
        simp only [reduceCtorEq, false_iff, not_and]
        intro h2 hne hsome
        exact hcond ⟨hne, hsome⟩

/-- Concrete 22-candle window (all fields 1 except candle 1, whose fields
are all -1) on which the two variants disagree. -/
def C5cex : List Bot.Candle :=
  (List.range 22).map (fun k => let v : ℚ := if k = 1 then -1 else 1; ⟨(k : Int), v, v, v, v⟩)

/-- C5, counterexample: the two variants are not bit-for-bit equal on every
candle window and multiplier.  On `C5cex` bot.py flips to `-1` at index 1
(its undefined stop levels are `0.0`, and the close `-1` lies below the
zero long stop), while chandelierbot.py holds `+1` (its undefined stop
levels are pandas NaN, and every comparison against NaN is false). -/
theorem C5_not_bitforbit : CB.compute_trend C5cex 3 ≠ Bot.compute_trend C5cex 3 := by
  decide


theorem c5_tr_eq (c : List Bot.Candle)
    (hl0 : Bot.lowD c 0 ≤ Bot.closeD c 0) (hh0 : Bot.closeD c 0 ≤ Bot.highD c 0) :
    ∀ i, CB.tr_ta c i = Bot.trVal c i := by
  intro i
  match i with
  | 0 =>
    rw [CB.tr_ta, if_pos rfl, Bot.trVal, Bot.prev_close, if_pos rfl]
    have h1 : |Bot.highD c 0 - Bot.closeD c 0| ≤ Bot.highD c 0 - Bot.lowD c 0 :=
      abs_le.mpr ⟨by linarith, by linarith⟩
    have h2 : |Bot.lowD c 0 - Bot.closeD c 0| ≤ Bot.highD c 0 - Bot.lowD c 0 :=
      abs_le.mpr ⟨by linarith, by linarith⟩
    exact (max_eq_left (max_le h1 h2)).symm
  | j + 1 =>
    rw [CB.tr_ta, if_neg (Nat.succ_ne_zero j), Bot.trVal, Bot.prev_close,
      if_neg (Nat.succ_ne_zero j)]

theorem c5_atr_eq (c : List Bot.Candle) (htr : ∀ i, CB.tr_ta c i = Bot.trVal c i) :
    ∀ i, Bot.ATR_PERIOD - 1 ≤ i → Bot.atr c i = some (CB.atr_ta c i) := by
  intro i hi
  have hmap : (List.range Bot.ATR_PERIOD).map (CB.tr_ta c) =
      (List.range Bot.ATR_PERIOD).map (Bot.trVal c) :=
    List.map_congr_left (fun a _ => htr a)
  induction i, hi using Nat.le_induction with
  | base =>
    have hb : Bot.atr c (Bot.ATR_PERIOD - 1) =
        some ((((List.range Bot.ATR_PERIOD).map (Bot.trVal c)).sum) / (Bot.ATR_PERIOD : ℚ)) := rfl
    have hcb : CB.atr_ta c (Bot.ATR_PERIOD - 1) =
        (((List.range Bot.ATR_PERIOD).map (CB.tr_ta c)).sum) / (Bot.ATR_PERIOD : ℚ) := rfl
    rw [hb, hcb, hmap]
  | succ j hj ih =>
    rw [Bot.atr, if_neg (by simp only [Bot.ATR_PERIOD] at hj ⊢; omega),
      if_neg (by simp only [Bot.ATR_PERIOD] at hj ⊢; omega), ih]
    rw [CB.atr_ta, if_neg (by simp only [Bot.ATR_PERIOD] at hj ⊢; omega),
      if_neg (by simp only [Bot.ATR_PERIOD] at hj ⊢; omega)]
    simp only [Option.map_some']
    rw [htr (j + 1)]

theorem c5_long_stop_eq (c : List Bot.Candle) (m : ℚ)
    (hatr : ∀ i, Bot.ATR_PERIOD - 1 ≤ i → Bot.atr c i = some (CB.atr_ta c i)) :
    ∀ i, Bot.ATR_PERIOD - 1 ≤ i → i < c.length →
      CB.long_stop c m i = some (Bot.long_stop c m i) := by
  intro i h1 h2
  rw [CB.long_stop, if_pos ⟨h1, h2⟩, Bot.long_stop, if_pos ⟨h1, h2⟩, hatr i h1,
    Option.getD_some]

theorem c5_short_stop_eq (c : List Bot.Candle) (m : ℚ)
    (hatr : ∀ i, Bot.ATR_PERIOD - 1 ≤ i → Bot.atr c i = some (CB.atr_ta c i)) :
    ∀ i, Bot.ATR_PERIOD - 1 ≤ i → i < c.length →
      CB.short_stop c m i = some (Bot.short_stop c m i) := by
  intro i h1 h2
  rw [CB.short_stop, if_pos ⟨h1, h2⟩, Bot.short_stop, if_pos ⟨h1, h2⟩, hatr i h1,
    Option.getD_some]

theorem c5_bot_stop_early (c : List Bot.Candle) (m : ℚ) :
    ∀ i, i ≤ Bot.ATR_PERIOD - 2 → Bot.long_stop c m i = 0 ∧ Bot.short_stop c m i = 0 := by
  intro i hi
  constructor
  · rw [Bot.long_stop, if_neg]
    rintro ⟨ha, _⟩
    simp only [Bot.ATR_PERIOD] at ha hi
    omega
  · rw [Bot.short_stop, if_neg]
    rintro ⟨ha, _⟩
    simp only [Bot.ATR_PERIOD] at ha hi
    omega

theorem c5_bot_adj_early (c : List Bot.Candle) (m : ℚ)
    (hn : Bot.ATR_PERIOD ≤ c.length) (hpos : ∀ x ∈ c, 0 < x.close) :
    ∀ i, i ≤ Bot.ATR_PERIOD - 2 → Bot.long_adj c m i = 0 ∧ Bot.short_adj c m i = 0 := by
  intro i
  induction i with
  | zero =>
    intro _
    exact ⟨(c5_bot_stop_early c m 0 (by simp [Bot.ATR_PERIOD])).1,
      (c5_bot_stop_early c m 0 (by simp [Bot.ATR_PERIOD])).2⟩
  | succ j ih =>
    intro hj
    have hj' : j ≤ Bot.ATR_PERIOD - 2 := by
      simp only [Bot.ATR_PERIOD] at hj ⊢; omega
    have hjn : j < c.length := by
      simp only [Bot.ATR_PERIOD] at hj hn; omega
    have hcp : 0 < Bot.closeD c j := Bot.closeD_pos c hpos hjn
    constructor
    · rw [Bot.long_adj, (ih hj').1, (c5_bot_stop_early c m (j + 1) hj).1]
      rw [if_pos hcp]
      simp
    · rw [Bot.short_adj, (ih hj').2, (c5_bot_stop_early c m (j + 1) hj).2]
      rw [if_neg (by linarith)]

theorem c5_cb_stop_early (c : List Bot.Candle) (m : ℚ) :
    ∀ i, i ≤ Bot.ATR_PERIOD - 2 → CB.long_stop c m i = none ∧ CB.short_stop c m i = none := by
  intro i hi
  constructor
  · rw [CB.long_stop, if_neg]
    rintro ⟨ha, _⟩
    simp only [Bot.ATR_PERIOD] at ha hi
    omega
  · rw [CB.short_stop, if_neg]
    rintro ⟨ha, _⟩
    simp only [Bot.ATR_PERIOD] at ha hi
    omega

theorem c5_cb_adj_early (c : List Bot.Candle) (m : ℚ) :
    ∀ i, i ≤ Bot.ATR_PERIOD - 2 → CB.long_adj c m i = none ∧ CB.short_adj c m i = none := by
  intro i
  induction i with
  | zero =>
    intro _
    exact ⟨(c5_cb_stop_early c m 0 (by simp [Bot.ATR_PERIOD])).1,
      (c5_cb_stop_early c m 0 (by simp [Bot.ATR_PERIOD])).2⟩
  | succ j ih =>
    intro hj
    have hj' : j ≤ Bot.ATR_PERIOD - 2 := by
      simp only [Bot.ATR_PERIOD] at hj ⊢; omega
    constructor
    · rw [CB.long_adj, (ih hj').1]
      simp [CB.ogt, (c5_cb_stop_early c m (j + 1) hj).1]
    · rw [CB.short_adj, (ih hj').2]
      simp [CB.olt, (c5_cb_stop_early c m (j + 1) hj).2]

theorem cb_olt_none (x : ℚ) : CB.olt x none = false := rfl

theorem cb_ogt_none (x : ℚ) : CB.ogt x none = false := rfl

theorem cb_olt_some (x v : ℚ) : CB.olt x (some v) = decide (x < v) := rfl

theorem cb_ogt_some (x v : ℚ) : CB.ogt x (some v) = decide (v < x) := rfl

theorem cb_omax_some (a b : ℚ) : CB.omax (some a) (some b) = some (max a b) := rfl

theorem cb_omin_some (a b : ℚ) : CB.omin (some a) (some b) = some (min a b) := rfl

theorem c5_inv (c : List Bot.Candle) (m : ℚ)
    (hn : Bot.ATR_PERIOD ≤ c.length) (hpos : ∀ x ∈ c, 0 < x.close)
    (hls : ∀ i, Bot.ATR_PERIOD - 1 ≤ i → i < c.length →
      CB.long_stop c m i = some (Bot.long_stop c m i))
    (hss : ∀ i, Bot.ATR_PERIOD - 1 ≤ i → i < c.length →
      CB.short_stop c m i = some (Bot.short_stop c m i)) :
    ∀ i, Bot.ATR_PERIOD - 1 ≤ i → i < c.length →
      (CB.short_adj c m i = some (Bot.short_adj c m i) ∧
       ∃ v, CB.long_adj c m i = some v ∧
         (Bot.long_adj c m i = v ∨ Bot.long_adj c m i = max v 0)) := by
  intro i hi
  induction i, hi using Nat.le_induction with
  | base =>
    intro hlt
    have h20 : (20 : Nat) ≤ Bot.ATR_PERIOD - 2 := by simp [Bot.ATR_PERIOD]
    have e : Bot.ATR_PERIOD - 1 = 20 + 1 := rfl
    rw [e] at hlt ⊢
    have hc20 : 0 < Bot.closeD c 20 :=
      Bot.closeD_pos c hpos (by simp only [Bot.ATR_PERIOD] at hn; omega)
    constructor
    · rw [CB.short_adj, Bot.short_adj,
        (c5_cb_adj_early c m 20 h20).2, (c5_bot_adj_early c m hn hpos 20 h20).2,
        cb_olt_none, if_neg (by simp), if_neg (by linarith)]
      exact hss (20 + 1) (by simp [Bot.ATR_PERIOD]) hlt
    · refine ⟨Bot.long_stop c m (20 + 1), ?_, Or.inr ?_⟩
      · rw [CB.long_adj, (c5_cb_adj_early c m 20 h20).1, cb_ogt_none,
          if_neg (by simp)]
        exact hls (20 + 1) (by simp [Bot.ATR_PERIOD]) hlt
      · rw [Bot.long_adj, (c5_bot_adj_early c m hn hpos 20 h20).1, if_pos hc20]
  | succ j hj ih =>
    intro hlt
    have hjn : j < c.length := by omega
    obtain ⟨hS, v, hCL, hBL⟩ := ih hjn
    have hcj : 0 < Bot.closeD c j := Bot.closeD_pos c hpos hjn
    have hsucc_le : Bot.ATR_PERIOD - 1 ≤ j + 1 := by omega
    have hls' := hls (j + 1) hsucc_le hlt
    have hss' := hss (j + 1) hsucc_le hlt
    constructor
    · rw [CB.short_adj, hS, cb_olt_some, Bot.short_adj]
      by_cases hc : Bot.closeD c j < Bot.short_adj c m j
      · rw [if_pos (by simpa using hc), if_pos hc, hss', cb_omin_some]
      · rw [if_neg (by simpa using hc), if_neg hc]
        exact hss'
    · rcases hBL with hBL | hBL
      · by_cases hc : v < Bot.closeD c j
        · refine ⟨max (Bot.long_stop c m (j + 1)) v, ?_, Or.inl ?_⟩
          · rw [CB.long_adj, hCL, cb_ogt_some, if_pos (by simpa using hc), hls',
              cb_omax_some]
          · rw [Bot.long_adj, hBL, if_pos hc]
        · refine ⟨Bot.long_stop c m (j + 1), ?_, Or.inl ?_⟩
          · rw [CB.long_adj, hCL, cb_ogt_some, if_neg (by simpa using hc)]
            exact hls'
          · rw [Bot.long_adj, hBL, if_neg hc]
      · by_cases hc : v < Bot.closeD c j
        · refine ⟨max (Bot.long_stop c m (j + 1)) v, ?_, Or.inr ?_⟩
          · rw [CB.long_adj, hCL, cb_ogt_some, if_pos (by simpa using hc), hls',
              cb_omax_some]
          · rw [Bot.long_adj, hBL, if_pos (max_lt_iff.mpr ⟨hc, hcj⟩), max_assoc]
        · refine ⟨Bot.long_stop c m (j + 1), ?_, Or.inl ?_⟩
          · rw [CB.long_adj, hCL, cb_ogt_some, if_neg (by simpa using hc)]
            exact hls'
          · rw [Bot.long_adj, hBL, if_neg (fun h => hc (max_lt_iff.mp h).1)]

theorem c5_bot_trend_early (c : List Bot.Candle) (m : ℚ)
    (hn : Bot.ATR_PERIOD ≤ c.length) (hpos : ∀ x ∈ c, 0 < x.close) :
    ∀ i, i ≤ Bot.ATR_PERIOD - 1 → Bot.trendAt c m i = 1 := by
  intro i
  induction i with
  | zero => intro _; rfl
  | succ j ih =>
    intro hj
    have hj' : j ≤ Bot.ATR_PERIOD - 2 := by simp only [Bot.ATR_PERIOD] at hj ⊢; omega
    have hjn : j + 1 < c.length := by simp only [Bot.ATR_PERIOD] at hj hn; omega
    rw [Bot.trendAt, (c5_bot_adj_early c m hn hpos j hj').2,
      if_pos (Bot.closeD_pos c hpos hjn)]

theorem c5_cb_trend_early (c : List Bot.Candle) (m : ℚ) :
    ∀ i, i ≤ Bot.ATR_PERIOD - 1 → CB.trendAt c m i = 1 := by
  intro i
  induction i with
  | zero => intro _; rfl
  | succ j ih =>
    intro hj
    have hj' : j ≤ Bot.ATR_PERIOD - 2 := by simp only [Bot.ATR_PERIOD] at hj ⊢; omega
    have hj2 : j ≤ Bot.ATR_PERIOD - 1 := by simp only [Bot.ATR_PERIOD] at hj ⊢; omega
    rw [CB.trendAt, (c5_cb_adj_early c m j hj').2, (c5_cb_adj_early c m j hj').1,
      cb_olt_none, cb_ogt_none, if_neg (by simp), if_neg (by simp)]
    exact ih hj2

theorem c5_trend_eq (c : List Bot.Candle) (m : ℚ)
    (hn : Bot.ATR_PERIOD ≤ c.length) (hpos : ∀ x ∈ c, 0 < x.close)
    (hinv : ∀ i, Bot.ATR_PERIOD - 1 ≤ i → i < c.length →
      (CB.short_adj c m i = some (Bot.short_adj c m i) ∧
       ∃ v, CB.long_adj c m i = some v ∧
         (Bot.long_adj c m i = v ∨ Bot.long_adj c m i = max v 0))) :
    ∀ i, i < c.length → Bot.trendAt c m i = CB.trendAt c m i := by
  intro i
  induction i with
  | zero => intro _; rfl
  | succ j ih =>
    intro hjn
    by_cases hj : j + 1 ≤ Bot.ATR_PERIOD - 1
    · rw [c5_bot_trend_early c m hn hpos (j + 1) hj, c5_cb_trend_early c m (j + 1) hj]
    · have hj21 : Bot.ATR_PERIOD - 1 ≤ j := by simp only [Bot.ATR_PERIOD] at hj ⊢; omega
      have hjlt : j < c.length := by omega
      obtain ⟨hS, v, hCL, hBL⟩ := hinv j hj21 hjlt
      have hcq : 0 < Bot.closeD c (j + 1) := Bot.closeD_pos c hpos hjn
      rw [Bot.trendAt, CB.trendAt, hS, hCL, cb_ogt_some, cb_olt_some]
      by_cases h1 : Bot.closeD c (j + 1) > Bot.short_adj c m j
      · rw [if_pos h1, if_pos
          (show decide (Bot.short_adj c m j < Bot.closeD c (j + 1)) = true by
            simpa using h1)]
      · rw [if_neg h1, if_neg
          (show ¬ decide (Bot.short_adj c m j < Bot.closeD c (j + 1)) = true by
            simpa using h1)]
        have hlv : (Bot.closeD c (j + 1) < Bot.long_adj c m j) ↔
            (Bot.closeD c (j + 1) < v) := by
          rcases hBL with hBL | hBL
          · rw [hBL]
          · rw [hBL, lt_max_iff]
            constructor
            · rintro (h | h)
              · exact h
              · linarith
            · exact Or.inl
        by_cases h2 : Bot.closeD c (j + 1) < v
        · rw [if_pos (hlv.mpr h2), if_pos
            (show decide (Bot.closeD c (j + 1) < v) = true by simpa using h2)]
        · rw [if_neg (fun hh => h2 (hlv.mp hh)), if_neg
            (show ¬ decide (Bot.closeD c (j + 1) < v) = true by simpa using h2)]
          exact ih hjlt

/-- C5, amended: the two trend computations agree on every window that is
at least `ATR_PERIOD` candles long, has positive closes throughout, and
whose first candle satisfies `low ≤ close ≤ high`; outside those conditions
they can differ (see the counterexample), because bot.py fills undefined
ATR/stop values with `0.0`/`None` guards while chandelierbot.py propagates
pandas NaN, and because the ta library's true range at index 0 drops the
`|high - close|`/`|low - close|` terms. -/
theorem C5_equiv_valid_windows (c : List Bot.Candle) (m : ℚ)
    (hn : Bot.ATR_PERIOD ≤ c.length) (hpos : ∀ x ∈ c, 0 < x.close)
    (hl0 : Bot.lowD c 0 ≤ Bot.closeD c 0) (hh0 : Bot.closeD c 0 ≤ Bot.highD c 0) :
    CB.compute_trend c m = Bot.compute_trend c m := by
  have htr := c5_tr_eq c hl0 hh0
  have hatr := c5_atr_eq c htr
  have hls := c5_long_stop_eq c m hatr
  have hss := c5_short_stop_eq c m hatr
  have hinv := c5_inv c m hn hpos hls hss
  have htrend := c5_trend_eq c m hn hpos hinv
  rw [CB.compute_trend, Bot.compute_trend]
  apply List.map_congr_left
  intro a ha
  rw [List.mem_range] at ha
  have hmax : max 1 c.length = c.length := by
    simp only [Bot.ATR_PERIOD] at hn; omega
  rw [hmax] at ha
  exact (htrend a ha).symm

/-- Concrete valid 22-candle window for the C5 witness. -/
def C5w : List Bot.Candle := (List.range 22).map (fun k => ⟨(k : Int), 1, 1, 1, 1⟩)

/-- Witness for the amended C5 on a concrete valid window. -/
theorem C5_equiv_valid_windows_witness :
    Bot.ATR_PERIOD ≤ C5w.length ∧ (∀ x ∈ C5w, 0 < x.close) ∧
    Bot.lowD C5w 0 ≤ Bot.closeD C5w 0 ∧ Bot.closeD C5w 0 ≤ Bot.highD C5w 0 ∧
    CB.compute_trend C5w 3 = Bot.compute_trend C5w 3 :=
  ⟨by decide, by decide, by decide, by decide,
    C5_equiv_valid_windows C5w 3 (by decide) (by decide) (by decide) (by decide)⟩
